import Mathlib

set_option maxHeartbeats 1000000

namespace Tunnelly

/-!
Shallow embedding of the tunnel-ly rendezvous server (src/server/src/main.rs)
and agent (src/client/src/main.rs).  Bytes on the wire are modelled as
List Char (every byte the server emits in the head is ASCII; bodies are
opaque); machine strings are Lean String, whose data field is the char list.
-/

/-- the NUL sentinel byte (0x00) used by both framings. -/
def nulChar : Char := Char.ofNat 0

/-- visible-ASCII test of the http crate: a HeaderValue byte survives
to_str iff it is 32..126 or TAB. -/
def visibleAsciiByte (c : Char) : Bool :=
  (32 ≤ c.toNat && c.toNat < 127) || c.toNat == 9

/-- HeaderValue::to_str: some iff every byte is visible ASCII. -/
def headerValueToStr (l : List Char) : Option String :=
  if l.all visibleAsciiByte then some ⟨l⟩ else none

/-- all bytes of a stored header value are visible ASCII, so
HeaderValue::to_str().unwrap() at src/server/src/main.rs:354 succeeds. -/
def allVisibleAscii (s : String) : Bool := s.data.all visibleAsciiByte

/-! ## Service registry (spawn_service_manager, src/server/src/main.rs:60-169) -/

/-- the half of a session the registry can observe: whether the session's
inbox receiver is still alive, i.e. whether an UnboundedSender::send to it
returns Ok. -/
structure SessionRef where
  inboxOpen : Bool
deriving DecidableEq

/-- HashMap::get on the services map, modelled on an association list whose
keys are kept distinct. -/
def lookupService (sid : String) : List (String × SessionRef) → Option SessionRef
  | [] => none
  | (k, v) :: rest => if k = sid then some v else lookupService sid rest

/-- the RegisterService arm (src/server/src/main.rs:77-80): services.insert,
which replaces the value when the key is present and appends otherwise. -/
def register_service (sid : String) (ref : SessionRef) :
    List (String × SessionRef) → List (String × SessionRef)
  | [] => [(sid, ref)]
  | (k, v) :: rest =>
    if k = sid then (sid, ref) :: rest else (k, v) :: register_service sid ref rest

/-- a synthetic or forwarded HTTP response as the dispatcher sees it:
status code and body text. -/
structure SynthResponse where
  status : Nat
  body : String
deriving DecidableEq

/-- outcome of the ForwardRequest arm: the envelope was enqueued on a
session inbox, or a synthetic response was sent on the response mailbox. -/
inductive FwdOutcome where
  | enqueued (serviceId : String)
  | resp (r : SynthResponse)
deriving DecidableEq

/-- str::strip_suffix on char lists: some r iff l = r ++ suf. -/
def stripSuffixL (suf l : List Char) : Option (List Char) :=
  if suf.length ≤ l.length ∧ l.drop (l.length - suf.length) = suf then
    some (l.take (l.length - suf.length))
  else none

/-- resolution of the service id from the Host header
(src/server/src/main.rs:128-131): strip a trailing ".domain", else use the
raw host. -/
def resolve_service_id (domain host : String) : String :=
  match stripSuffixL ('.' :: domain.data) host.data with
  | some sid => ⟨sid⟩
  | none => host

/-- the ForwardRequest arm (src/server/src/main.rs:98-164).  The host
header is the raw bytes of the Host header when present.  Missing host or
to_str failure answer 400; a found service with a live inbox gets the
envelope; a dead inbox answers 502; an unknown id answers 404. -/
def forward_request (domain : String) (services : List (String × SessionRef))
    (hostHeader : Option (List Char)) : FwdOutcome :=
  match hostHeader with
  | none => .resp ⟨400, "400 Bad Request"⟩
  | some hv =>
    match headerValueToStr hv with
    | none => .resp ⟨400, "400 Bad Request"⟩
    | some strHost =>
      match lookupService (resolve_service_id domain strHost) services with
      | some sref =>
        if sref.inboxOpen then .enqueued (resolve_service_id domain strHost)
        else .resp ⟨502, "502 Bad Gateway"⟩
      | none => .resp ⟨404, "404 Service Not Found"⟩

/-! ## Session actor (spawn_service_session, src/server/src/main.rs:239-348) -/

/-- the session inbox payload (src/server/src/main.rs:54-58); streams and
request envelopes are named by numeric handles. -/
inductive ServiceSessionMessage where
  | recvPrimaryStream (stream : Nat)
  | recvRequest (reqId : Nat)
deriving DecidableEq

/-- phase 1 of the session (src/server/src/main.rs:257-266): loop on the
inbox until a primary stream arrives; the RecvRequest arm is empty, so the
envelope is dropped.  Returns the bound stream (none when the inbox drains
first, where recv().unwrap() panics), the messages left for phase 2, and
the (reqId, response) pairs sent on request mailboxes during the phase. -/
def session_phase1 : List ServiceSessionMessage →
    Option Nat × List ServiceSessionMessage × List (Nat × SynthResponse)
  | [] => (none, [], [])
  | .recvPrimaryStream s :: rest => (some s, rest, [])
  | .recvRequest _ :: rest => session_phase1 rest

/-- the length-prefix read loop (src/server/src/main.rs:290-302), fuel
indexed: the stream is the list of bytes still readable, and once it is
exhausted every read returns 0 bytes, which the loop answers with
continue.  some (acc, rest) when a NUL arrived; none when the loop has not
finished within fuel iterations. -/
def read_len_loop : Nat → List Nat → List Nat → Option (List Nat × List Nat)
  | 0, _, _ => none
  | fuel + 1, acc, [] => read_len_loop fuel acc []
  | fuel + 1, acc, b :: rest =>
    if b = 0 then some (acc, rest) else read_len_loop fuel (acc ++ [b]) rest

/-! ## Admin handler and id generator
(handle_root_request, src/server/src/main.rs:220-237;
phonetic_key_generator, src/server/src/main.rs:417-432) -/

/-- the vowel alphabet of the generator. -/
def vowels : List Char := ['a', 'e', 'i', 'o', 'u']

/-- the consonant alphabet of the generator. -/
def consonants : List Char :=
  ['b', 'c', 'd', 'f', 'g', 'h', 'j', 'k', 'l', 'm', 'n',
   'p', 'q', 'r', 's', 't', 'v', 'w', 'x', 'y', 'z']

/-- phonetic_key_generator (src/server/src/main.rs:417-432).  start is the
random bool turned into 0 or 1; pick i abstracts the random index the
i-th SliceRandom::choose draws, reduced modulo the alphabet length. -/
def phonetic_key_generator (start : Bool) (pick : Nat → Nat) : String :=
  ⟨(List.range 10).map fun i =>
    if i % 2 = (if start then 1 else 0) then
      consonants.getD (pick i % consonants.length) 'b'
    else
      vowels.getD (pick i % vowels.length) 'a'⟩

/-- handle_root_request (src/server/src/main.rs:220-237).  freshIds is the
stream of ids the generator would produce; the handler consumes only its
head.  POST /start registers a fresh session (its first act, line 247) and
answers 200 with the id; anything else answers 404 Hello World. -/
def handle_root_request (isPost : Bool) (path : String) (freshIds : List String)
    (services : List (String × SessionRef)) :
    SynthResponse × List (String × SessionRef) :=
  if isPost && path == "/start" then
    (⟨200, freshIds.headD ""⟩, register_service (freshIds.headD "") ⟨true⟩ services)
  else
    (⟨404, "Hello World"⟩, services)

/-- the dispatcher awaiting the response mailbox
(src/server/src/main.rs:215): recv().unwrap() on the list of responses the
session sent; none models the panic when the mailbox is closed empty. -/
def recv_unwrap (mailbox : List SynthResponse) : Option SynthResponse :=
  mailbox.head?

/-! ## Frame codec: server-side request serializer
(create_http_text, src/server/src/main.rs:350-361) -/

/-- an inbound HTTP request as hyper hands it to the core: method, uri,
headers in iteration order, raw body bytes. -/
structure HttpRequest where
  method : String
  uri : String
  headers : List (String × String)
  body : List Char
deriving DecidableEq

/-- the CR LF line break. -/
def crlf : List Char := ['\r', '\n']

/-- the request line emitted at src/server/src/main.rs:352. -/
def request_line (m u : String) : List Char :=
  m.data ++ ' ' :: (u.data ++ ' ' :: ("HTTP/1.1".data ++ crlf))

/-- one header line emitted at src/server/src/main.rs:354. -/
def header_line (k v : String) : List Char :=
  k.data ++ ':' :: ' ' :: (v.data ++ crlf)

/-- the header section in iteration order. -/
def header_block : List (String × String) → List Char
  | [] => []
  | kv :: rest => header_line kv.1 kv.2 ++ header_block rest

/-- the full serialized request of create_http_text: request line, header
lines, blank line, body. -/
def wire_request (r : HttpRequest) : List Char :=
  request_line r.method r.uri ++ (header_block r.headers ++ ('\r' :: '\n' :: r.body))

/-- create_http_text (src/server/src/main.rs:350-361).  Each header value
goes through HeaderValue::to_str().unwrap(); none models that panic when a
value is not visible ASCII, and no bytes are produced then. -/
def create_http_text (r : HttpRequest) : Option (List Char) :=
  if r.headers.all fun kv => allVisibleAscii kv.2 then
    some (wire_request r)
  else none

/-- the frame write of the serving session (src/server/src/main.rs:282-283):
the serialized request followed by the NUL sentinel; none when
create_http_text panicked first. -/
def serve_write_frame (r : HttpRequest) : Option (List Char) :=
  match create_http_text r with
  | none => none
  | some t => some (t ++ [nulChar])

/-! ## Frame codec: agent side
(main loop and create_request, src/client/src/main.rs:35-97) -/

/-- the agent's read-until-NUL loop (src/client/src/main.rs:36-49): the
bytes of a request frame up to but excluding the first NUL. -/
def read_until_nul : List Char → List Char
  | [] => []
  | c :: rest => if c = nulChar then [] else c :: read_until_nul rest

/-- split of the input at the first char satisfying p: the prefix of chars
failing p, and the rest starting at the hit (httparse token scanning). -/
def takeUntil (p : Char → Bool) : List Char → List Char × List Char
  | [] => ([], [])
  | c :: rest =>
    if p c then ([], c :: rest)
    else (c :: (takeUntil p rest).1, (takeUntil p rest).2)

/-- consume one expected char, else fail. -/
def expectChar (c : Char) : List Char → Option (List Char)
  | [] => none
  | a :: rest => if a = c then some rest else none

/-- consume an expected char sequence, else fail. -/
def expectSeq : List Char → List Char → Option (List Char)
  | [], l => some l
  | _ :: _, [] => none
  | p :: ps, a :: rest => if a = p then expectSeq ps rest else none

/-- consume a CR LF pair, else fail. -/
def expectCRLF (l : List Char) : Option (List Char) := expectSeq crlf l

/-- skip of space and tab after the header-name colon (httparse). -/
def dropSpaces (l : List Char) : List Char :=
  l.dropWhile fun c => c == ' ' || c == '\t'

/-- chars ending a header name in the httparse head grammar. -/
def headerNameEnd (c : Char) : Bool := c == ':' || c == '\r' || c == '\n'

/-- chars ending a header value in the httparse head grammar. -/
def headerValueEnd (c : Char) : Bool := c == '\r' || c == '\n'

/-- the header buffer the agent hands to httparse:
vec![httparse::EMPTY_HEADER; 64] at src/client/src/main.rs:73, so 64
header slots. -/
def maxHeaders : Nat := 64

/-- the header section parser of httparse as the agent drives it
(src/client/src/main.rs:73-81), fuel indexed.  slots is the number of
EMPTY_HEADER slots still free: when a further header line begins with no
slot left, httparse reports TooManyHeaders, which the unwrap at
src/client/src/main.rs:75 turns into a panic (none here).  An empty line
ends the head and the remainder of the frame is the body taken
verbatim. -/
def parse_headers : Nat → Nat → List Char → Option (List (String × String) × List Char)
  | _, 0, _ => none
  | slots, fuel + 1, input =>
    match expectCRLF input with
    | some rest => some ([], rest)
    | none =>
      if slots = 0 then none
      else
        match expectChar ':' (takeUntil headerNameEnd input).2 with
        | none => none
        | some afterColon =>
          match expectCRLF (takeUntil headerValueEnd (dropSpaces afterColon)).2 with
          | none => none
          | some afterValue =>
            match parse_headers (slots - 1) fuel afterValue with
            | none => none
            | some (hs, body) =>
              some ((⟨(takeUntil headerNameEnd input).1⟩,
                     ⟨(takeUntil headerValueEnd (dropSpaces afterColon)).1⟩) :: hs, body)

/-- the HTTP-version parser of httparse: HTTP/1. then 0 or 1, then CR LF. -/
def parse_version (l : List Char) : Option (Nat × List Char) :=
  match expectSeq "HTTP/1.".data l with
  | none => none
  | some rest =>
    match rest with
    | [] => none
    | d :: rest2 =>
      if d = '0' then (expectCRLF rest2).map fun r => (0, r)
      else if d = '1' then (expectCRLF rest2).map fun r => (1, r)
      else none

/-- the request head as httparse reports it plus the verbatim body after
the reported head length. -/
structure ParsedRequest where
  method : String
  path : String
  headers : List (String × String)
  body : List Char
deriving DecidableEq

/-- the request parse the agent performs (src/client/src/main.rs:73-81):
request line, header lines to the blank line, rest as body. -/
def parse_http_request (bytes : List Char) : Option ParsedRequest :=
  match expectChar ' ' (takeUntil (fun c => c == ' ') bytes).2 with
  | none => none
  | some afterMethod =>
    match expectChar ' ' (takeUntil (fun c => c == ' ') afterMethod).2 with
    | none => none
    | some afterPath =>
      match parse_version afterPath with
      | none => none
      | some (_, afterVersion) =>
        match parse_headers maxHeaders (afterVersion.length + 1) afterVersion with
        | none => none
        | some (hs, body) =>
          some ⟨⟨(takeUntil (fun c => c == ' ') bytes).1⟩,
                ⟨(takeUntil (fun c => c == ' ') afterMethod).1⟩, hs, body⟩

/-- the request the agent issues to the origin: parsed method, the local
forwarding url with the tunneled path appended, the parsed headers, and
the body bytes. -/
structure ForwardedRequest where
  method : String
  url : String
  headers : List (String × String)
  body : List Char
deriving DecidableEq

/-- create_request (src/client/src/main.rs:68-97): parse the frame, then
build the origin request from its pieces.  none covers both failure
exits: a parse error - including TooManyHeaders when the frame holds more
than the 64 buffered headers - panics at the unwrap on line 75, and a
Partial head returns Err; in either case nothing is delivered to the
origin. -/
def create_request (bytes : List Char) (forwardingUrl forwardingPort : String) :
    Option ForwardedRequest :=
  match parse_http_request bytes with
  | none => none
  | some pr =>
    some ⟨pr.method, forwardingUrl ++ ":" ++ forwardingPort ++ pr.path,
          pr.headers, pr.body⟩

/-- a request with one more header than the agent's httparse buffer can
hold; hyper's server accepts up to 100 request headers, so it reaches the
session serializer. -/
def reqOverflow : HttpRequest :=
  ⟨"GET", "/", List.replicate 65 ("x-a", "1"), []⟩

/-! ## Well-formedness of a hyper request, as its types enforce it -/

/-- a char a hyper Method or Uri may contain: no space, CR, LF or NUL. -/
def tokenChar (c : Char) : Bool :=
  !(c == ' ') && !(c == '\r') && !(c == '\n') && !(c == nulChar)

/-- a char a hyper HeaderName may contain: no colon, CR, LF or NUL. -/
def headerNameChar (c : Char) : Bool :=
  !(c == ':') && !(c == '\r') && !(c == '\n') && !(c == nulChar)

/-- Method and Uri well-formedness. -/
def tokenOk (s : String) : Bool := s.data.all tokenChar

/-- HeaderName well-formedness. -/
def headerNameOk (s : String) : Bool := s.data.all headerNameChar

/-- HeaderValue well-formedness as to_str enforces it, plus no leading
space or tab (hyper strips surrounding whitespace on construction). -/
def headerValueOk (s : String) : Bool :=
  allVisibleAscii s &&
    (match s.data with
     | [] => true
     | c :: _ => !(c == ' ') && !(c == '\t'))

/-! ## Helper lemmas on the codec building blocks -/

theorem takeUntil_nil (p : Char → Bool) : takeUntil p [] = ([], []) := rfl

theorem takeUntil_hit (p : Char → Bool) (c : Char) (l : List Char) (h : p c = true) :
    takeUntil p (c :: l) = ([], c :: l) := by
  simp [takeUntil, h]

theorem takeUntil_append (p : Char → Bool) (l r : List Char)
    (h : ∀ c ∈ l, p c = false) :
    takeUntil p (l ++ r) = (l ++ (takeUntil p r).1, (takeUntil p r).2) := by
  induction l with
  | nil => simp
  | cons c cs ih =>
    have hc : p c = false := h c (List.mem_cons_self c cs)
    have ih2 := ih fun x hx => h x (List.mem_cons_of_mem c hx)
    simp [takeUntil, hc, ih2]

theorem expectChar_self (c : Char) (l : List Char) : expectChar c (c :: l) = some l := by
  simp [expectChar]

theorem expectSeq_self (pre l : List Char) : expectSeq pre (pre ++ l) = some l := by
  induction pre with
  | nil => simp [expectSeq]
  | cons c cs ih => simp [expectSeq, ih]

theorem expectCRLF_crlf (l : List Char) : expectCRLF ('\r' :: '\n' :: l) = some l := by
  simp [expectCRLF, crlf, expectSeq]

theorem expectCRLF_ne (a : Char) (l : List Char) (h : ¬a = '\r') :
    expectCRLF (a :: l) = none := by
  simp [expectCRLF, crlf, expectSeq, h]

theorem read_until_nul_append (s t : List Char) (h : nulChar ∉ s) :
    read_until_nul (s ++ nulChar :: t) = s := by
  induction s with
  | nil => simp [read_until_nul]
  | cons c cs ih =>
    have hc : ¬c = nulChar := fun e => h (e ▸ List.mem_cons_self c cs)
    have ih2 := ih fun m => h (List.mem_cons_of_mem c m)
    simp [read_until_nul, hc, ih2]

theorem tokenChar_not_space (c : Char) (h : tokenChar c = true) : (c == ' ') = false := by
  simp only [tokenChar, Bool.and_eq_true, Bool.not_eq_true'] at h
  exact h.1.1.1

theorem tokenChar_not_nul (c : Char) (h : tokenChar c = true) : c ≠ nulChar := by
  simp only [tokenChar, Bool.and_eq_true, Bool.not_eq_true'] at h
  intro e
  rw [e] at h
  simp at h

theorem headerNameChar_not_end (c : Char) (h : headerNameChar c = true) :
    headerNameEnd c = false := by
  simp only [headerNameChar, Bool.and_eq_true, Bool.not_eq_true'] at h
  simp [headerNameEnd, h.1.1.1, h.1.1.2, h.1.2]

theorem headerNameChar_not_cr (c : Char) (h : headerNameChar c = true) : ¬c = '\r' := by
  simp only [headerNameChar, Bool.and_eq_true, Bool.not_eq_true'] at h
  intro e
  rw [e] at h
  simp at h

theorem headerNameChar_not_nul (c : Char) (h : headerNameChar c = true) : c ≠ nulChar := by
  simp only [headerNameChar, Bool.and_eq_true, Bool.not_eq_true'] at h
  intro e
  rw [e] at h
  simp at h

theorem visible_not_valueEnd (c : Char) (h : visibleAsciiByte c = true) :
    headerValueEnd c = false := by
  simp only [visibleAsciiByte, Bool.or_eq_true, Bool.and_eq_true,
    decide_eq_true_eq, beq_iff_eq] at h
  have hcr : ¬c = '\r' := by
    intro e; rw [e] at h; revert h; decide
  have hlf : ¬c = '\n' := by
    intro e; rw [e] at h; revert h; decide
  simp [headerValueEnd, hcr, hlf]

theorem visible_not_nul (c : Char) (h : visibleAsciiByte c = true) : c ≠ nulChar := by
  intro e
  rw [e] at h
  revert h
  decide

theorem visible_not_cr (c : Char) (h : visibleAsciiByte c = true) : ¬c = '\r' := by
  intro e
  rw [e] at h
  revert h
  decide

/-! ## Round-trip of one header line and of the header section -/

theorem takeUntil_name (k : String) (hk : headerNameOk k = true) (rest : List Char) :
    takeUntil headerNameEnd (k.data ++ ':' :: rest) = (k.data, ':' :: rest) := by
  rw [takeUntil_append _ _ _
    fun c hc => headerNameChar_not_end c (List.all_eq_true.mp hk c hc)]
  rw [takeUntil_hit _ _ _ (by decide)]
  simp

theorem takeUntil_value (v : String) (hv : allVisibleAscii v = true) (rest : List Char) :
    takeUntil headerValueEnd (v.data ++ '\r' :: rest) = (v.data, '\r' :: rest) := by
  rw [takeUntil_append _ _ _
    fun c hc => visible_not_valueEnd c (List.all_eq_true.mp hv c hc)]
  rw [takeUntil_hit _ _ _ (by decide)]
  simp

theorem expectCRLF_name_head (k : String) (hk : headerNameOk k = true) (rest : List Char) :
    expectCRLF (k.data ++ ':' :: rest) = none := by
  cases hd : k.data with
  | nil => simp [expectCRLF, crlf, expectSeq]
  | cons c cs =>
    have hc : headerNameChar c = true := List.all_eq_true.mp hk c (by rw [hd]; simp)
    exact expectCRLF_ne c _ (headerNameChar_not_cr c hc)

theorem dropSpaces_value (v : String) (hv : headerValueOk v = true) (rest : List Char) :
    dropSpaces (' ' :: (v.data ++ '\r' :: rest)) = v.data ++ '\r' :: rest := by
  simp only [headerValueOk, Bool.and_eq_true] at hv
  have h1 : dropSpaces (' ' :: (v.data ++ '\r' :: rest))
      = dropSpaces (v.data ++ '\r' :: rest) := by
    simp [dropSpaces, List.dropWhile]
  rw [h1]
  cases hd : v.data with
  | nil => simp [dropSpaces, List.dropWhile]
  | cons c cs =>
    have hlead := hv.2
    rw [hd] at hlead
    simp only [Bool.and_eq_true, Bool.not_eq_true'] at hlead
    simp [dropSpaces, List.dropWhile, hlead.1, hlead.2]

theorem parse_headers_roundtrip :
    ∀ (hs : List (String × String)) (slots fuel : Nat) (body : List Char),
      hs.length < fuel →
      hs.length ≤ slots →
      (∀ kv ∈ hs, headerNameOk kv.1 = true ∧ headerValueOk kv.2 = true) →
      parse_headers slots fuel (header_block hs ++ '\r' :: '\n' :: body) =
        some (hs, body) := by
  intro hs
  induction hs with
  | nil =>
    intro slots fuel body hfuel _ _
    cases fuel with
    | zero => omega
    | succ f => simp [parse_headers, header_block, expectCRLF_crlf]
  | cons kv hs ih =>
    intro slots fuel body hfuel hslots hwf
    obtain ⟨k, v⟩ := kv
    cases fuel with
    | zero => omega
    | succ f =>
      cases slots with
      | zero => simp at hslots
      | succ s =>
        obtain ⟨hkOk, hvOk⟩ := hwf (k, v) (List.mem_cons_self _ _)
        have hvAscii : allVisibleAscii v = true :=
          (Bool.and_eq_true _ _ ▸ hvOk : _ ∧ _).1
        have hih := ih s f body (by simpa using Nat.lt_of_succ_lt_succ hfuel)
          (by simpa using Nat.le_of_succ_le_succ hslots)
          fun kv hkv => hwf kv (List.mem_cons_of_mem _ hkv)
        have hR : header_block ((k, v) :: hs) ++ '\r' :: '\n' :: body
            = k.data ++ ':' :: ' ' :: (v.data ++ '\r' :: '\n' ::
                (header_block hs ++ '\r' :: '\n' :: body)) := by
          simp [header_block, header_line, crlf]
        rw [hR]
        simp only [parse_headers,
          expectCRLF_name_head k hkOk _,
          takeUntil_name k hkOk _,
          expectChar_self,
          dropSpaces_value v hvOk _,
          takeUntil_value v hvAscii _,
          expectCRLF_crlf,
          if_neg (Nat.succ_ne_zero s),
          Nat.add_sub_cancel,
          hih]

/-- with fewer free slots than headers on the wire, httparse overflows
its buffer: the 65th header line finds no slot and the parse reports
TooManyHeaders (none) however much fuel remains. -/
theorem parse_headers_overflow :
    ∀ (hs : List (String × String)) (slots fuel : Nat) (body : List Char),
      hs.length < fuel →
      slots < hs.length →
      (∀ kv ∈ hs, headerNameOk kv.1 = true ∧ headerValueOk kv.2 = true) →
      parse_headers slots fuel (header_block hs ++ '\r' :: '\n' :: body) = none := by
  intro hs
  induction hs with
  | nil =>
    intro slots fuel body _ hslots _
    simp at hslots
  | cons kv hs ih =>
    intro slots fuel body hfuel hslots hwf
    obtain ⟨k, v⟩ := kv
    cases fuel with
    | zero => omega
    | succ f =>
      obtain ⟨hkOk, hvOk⟩ := hwf (k, v) (List.mem_cons_self _ _)
      have hvAscii : allVisibleAscii v = true :=
        (Bool.and_eq_true _ _ ▸ hvOk : _ ∧ _).1
      have hR : header_block ((k, v) :: hs) ++ '\r' :: '\n' :: body
          = k.data ++ ':' :: ' ' :: (v.data ++ '\r' :: '\n' ::
              (header_block hs ++ '\r' :: '\n' :: body)) := by
        simp [header_block, header_line, crlf]
      rw [hR]
      cases slots with
      | zero =>
        simp [parse_headers, expectCRLF_name_head k hkOk _]
      | succ s =>
        have hih := ih s f body (by simpa using Nat.lt_of_succ_lt_succ hfuel)
          (by simpa using Nat.lt_of_succ_lt_succ hslots)
          fun kv2 hkv2 => hwf kv2 (List.mem_cons_of_mem _ hkv2)
        simp only [parse_headers,
          expectCRLF_name_head k hkOk _,
          takeUntil_name k hkOk _,
          expectChar_self,
          dropSpaces_value v hvOk _,
          takeUntil_value v hvAscii _,
          expectCRLF_crlf,
          if_neg (Nat.succ_ne_zero s),
          Nat.add_sub_cancel,
          hih]

/-! ## Round-trip of the whole request frame -/

theorem http11_split : "HTTP/1.1".data = "HTTP/1.".data ++ ['1'] := by decide

theorem wire_request_shape (r : HttpRequest) :
    wire_request r = r.method.data ++ ' ' :: (r.uri.data ++ ' ' ::
      ("HTTP/1.".data ++ '1' :: '\r' :: '\n' ::
        (header_block r.headers ++ '\r' :: '\n' :: r.body))) := by
  simp [wire_request, request_line, crlf, http11_split]

theorem takeUntil_token (s : String) (hs : tokenOk s = true) (rest : List Char) :
    takeUntil (fun c => c == ' ') (s.data ++ ' ' :: rest) = (s.data, ' ' :: rest) := by
  rw [takeUntil_append _ _ _
    fun c hc => tokenChar_not_space c (List.all_eq_true.mp hs c hc)]
  rw [takeUntil_hit _ _ _ (by decide)]
  simp

theorem parse_version_roundtrip (rest : List Char) :
    parse_version (['H', 'T', 'T', 'P', '/', '1', '.'] ++ '1' :: '\r' :: '\n' :: rest) =
      some (1, rest) := by
  have hH : "HTTP/1.".data = ['H', 'T', 'T', 'P', '/', '1', '.'] := by decide
  unfold parse_version
  rw [hH, expectSeq_self]
  simp [expectCRLF_crlf]

theorem header_block_length_ge (hs : List (String × String)) :
    hs.length ≤ (header_block hs).length := by
  induction hs with
  | nil => simp [header_block]
  | cons kv rest ih =>
    simp only [header_block, header_line, crlf, List.length_append, List.length_cons]
    omega

theorem nul_not_mem_header_line (k v : String) (hk : headerNameOk k = true)
    (hv : allVisibleAscii v = true) : nulChar ∉ header_line k v := by
  intro hmem
  simp only [header_line, crlf, List.mem_append, List.mem_cons,
    List.not_mem_nil, or_false] at hmem
  rcases hmem with h | h | h | h | h | h
  · exact headerNameChar_not_nul _ (List.all_eq_true.mp hk _ h) rfl
  · exact (by decide : ¬nulChar = ':') h
  · exact (by decide : ¬nulChar = ' ') h
  · exact visible_not_nul _ (List.all_eq_true.mp hv _ h) rfl
  · exact (by decide : ¬nulChar = '\r') h
  · exact (by decide : ¬nulChar = '\n') h

theorem nul_not_mem_header_block (hs : List (String × String))
    (h : ∀ kv ∈ hs, headerNameOk kv.1 = true ∧ headerValueOk kv.2 = true) :
    nulChar ∉ header_block hs := by
  induction hs with
  | nil => simp [header_block]
  | cons kv rest ih =>
    obtain ⟨hk, hv⟩ := h kv (List.mem_cons_self _ _)
    have hvAscii : allVisibleAscii kv.2 = true := by
      simp only [headerValueOk, Bool.and_eq_true] at hv
      exact hv.1
    simp only [header_block, List.mem_append]
    intro hmem
    rcases hmem with h1 | h1
    · exact nul_not_mem_header_line kv.1 kv.2 hk hvAscii h1
    · exact ih (fun kv2 hkv2 => h kv2 (List.mem_cons_of_mem _ hkv2)) h1

theorem nul_not_mem_wire (r : HttpRequest) (hm : tokenOk r.method = true)
    (hu : tokenOk r.uri = true)
    (hh : ∀ kv ∈ r.headers, headerNameOk kv.1 = true ∧ headerValueOk kv.2 = true)
    (hb : nulChar ∉ r.body) : nulChar ∉ wire_request r := by
  intro hmem
  rw [wire_request_shape] at hmem
  generalize hH : "HTTP/1.".data = H at hmem
  have hHn : nulChar ∉ H := by rw [← hH]; decide
  simp only [List.mem_append, List.mem_cons] at hmem
  rcases hmem with h | h | h | h | h | h | h | h | h | h | h | h
  · exact tokenChar_not_nul _ (List.all_eq_true.mp hm _ h) rfl
  · exact (by decide : ¬nulChar = ' ') h
  · exact tokenChar_not_nul _ (List.all_eq_true.mp hu _ h) rfl
  · exact (by decide : ¬nulChar = ' ') h
  · exact hHn h
  · exact (by decide : ¬nulChar = '1') h
  · exact (by decide : ¬nulChar = '\r') h
  · exact (by decide : ¬nulChar = '\n') h
  · exact nul_not_mem_header_block r.headers hh h
  · exact (by decide : ¬nulChar = '\r') h
  · exact (by decide : ¬nulChar = '\n') h
  · exact hb h

/-! ## Claim theorems -/

/-- C6 as amended: for every HTTP/1.1 request with at most 64 headers
(the agent's httparse buffer size) whose body contains no NUL byte (and
whose fields satisfy the character well-formedness the hyper types
enforce), serializing it on the server with create_http_text, framing it
with the NUL sentinel, reading the frame back on the agent up to the
sentinel and parsing it with create_request recovers exactly the original
method, path, headers in order, and body: the bytes delivered to the
origin equal the bytes received by the public listener. -/
theorem create_http_roundtrip (r : HttpRequest) (furl fport : String)
    (hm : tokenOk r.method = true) (hu : tokenOk r.uri = true)
    (hh : ∀ kv ∈ r.headers, headerNameOk kv.1 = true ∧ headerValueOk kv.2 = true)
    (hcap : r.headers.length ≤ maxHeaders)
    (hb : nulChar ∉ r.body) :
    create_http_text r = some (wire_request r) ∧
    read_until_nul (wire_request r ++ [nulChar]) = wire_request r ∧
    create_request (wire_request r) furl fport =
      some ⟨r.method, furl ++ ":" ++ fport ++ r.uri, r.headers, r.body⟩ := by
  refine ⟨?_, ?_, ?_⟩
  · have hall : (r.headers.all fun kv => allVisibleAscii kv.2) = true := by
      rw [List.all_eq_true]
      intro kv hkv
      have h2 := (hh kv hkv).2
      simp only [headerValueOk, Bool.and_eq_true] at h2
      exact h2.1
    simp [create_http_text, hall]
  · exact read_until_nul_append _ [] (nul_not_mem_wire r hm hu hh hb)
  · have hph := parse_headers_roundtrip r.headers maxHeaders
      ((header_block r.headers ++ '\r' :: '\n' :: r.body).length + 1) r.body
      (by
        have := header_block_length_ge r.headers
        simp only [List.length_append, List.length_cons]
        omega)
      hcap
      hh
    rw [wire_request_shape]
    simp only [create_request, parse_http_request,
      takeUntil_token r.method hm _,
      takeUntil_token r.uri hu _,
      expectChar_self,
      parse_version_roundtrip,
      hph]

/-- unfolding of register_service on the empty map. -/
theorem register_service_nil (sid : String) (ref : SessionRef) :
    register_service sid ref [] = [(sid, ref)] := rfl

/-- unfolding of register_service when the head key is the registered id. -/
theorem register_service_cons_eq (sid : String) (ref v : SessionRef)
    (rest : List (String × SessionRef)) :
    register_service sid ref ((sid, v) :: rest) = (sid, ref) :: rest := by
  simp [register_service]

/-- unfolding of register_service when the head key differs. -/
theorem register_service_cons_ne (sid k : String) (ref v : SessionRef)
    (rest : List (String × SessionRef)) (hk : ¬k = sid) :
    register_service sid ref ((k, v) :: rest) =
      (k, v) :: register_service sid ref rest := by
  simp [register_service, hk]

/-- registration inserts or replaces, so a lookup of the registered id
finds the new session inbox. -/
theorem register_lookup_self (sid : String) (ref : SessionRef) :
    ∀ m : List (String × SessionRef),
      lookupService sid (register_service sid ref m) = some ref := by
  intro m
  induction m with
  | nil => simp [register_service_nil, lookupService]
  | cons kv rest ih =>
    obtain ⟨k, v⟩ := kv
    by_cases hk : k = sid
    · subst hk
      rw [register_service_cons_eq]
      simp [lookupService]
    · rw [register_service_cons_ne sid k ref v rest hk]
      simp [lookupService, hk, ih]

/-- registration leaves every other id's lookup unchanged. -/
theorem register_lookup_other (sid sid2 : String) (ref : SessionRef)
    (h : ¬sid2 = sid) :
    ∀ m, lookupService sid2 (register_service sid ref m) = lookupService sid2 m := by
  intro m
  induction m with
  | nil =>
    have h2 : ¬sid = sid2 := fun e => h e.symm
    simp [register_service_nil, lookupService, h2]
  | cons kv rest ih =>
    obtain ⟨k, v⟩ := kv
    by_cases hk : k = sid
    · subst hk
      rw [register_service_cons_eq]
      have h2 : ¬k = sid2 := fun e => h e.symm
      simp [lookupService, h2]
    · rw [register_service_cons_ne sid k ref v rest hk]
      by_cases hk2 : k = sid2
      · subst hk2
        simp [lookupService]
      · simp [lookupService, hk2, ih]

/-- every key of the map after a registration is the registered id or a
key that was already present. -/
theorem mem_keys_register (sid : String) (ref : SessionRef) :
    ∀ (m : List (String × SessionRef)) (a : String),
      a ∈ (register_service sid ref m).map Prod.fst →
      a = sid ∨ a ∈ m.map Prod.fst := by
  intro m
  induction m with
  | nil =>
    intro a ha
    rw [register_service_nil] at ha
    simp only [List.map_cons, List.map_nil, List.mem_cons, List.not_mem_nil,
      or_false] at ha
    exact Or.inl ha
  | cons kv rest ih =>
    obtain ⟨k, v⟩ := kv
    intro a ha
    by_cases hk : k = sid
    · subst hk
      rw [register_service_cons_eq] at ha
      simp only [List.map_cons, List.mem_cons] at ha
      rcases ha with h1 | h1
      · exact Or.inl h1
      · exact Or.inr (by simp only [List.map_cons, List.mem_cons]; exact Or.inr h1)
    · rw [register_service_cons_ne sid k ref v rest hk] at ha
      simp only [List.map_cons, List.mem_cons] at ha
      rcases ha with h1 | h1
      · exact Or.inr (by simp only [List.map_cons, List.mem_cons]; exact Or.inl h1)
      · rcases ih a h1 with h2 | h2
        · exact Or.inl h2
        · exact Or.inr (by simp only [List.map_cons, List.mem_cons]; exact Or.inr h2)

/-- registration preserves distinctness of the keys. -/
theorem register_keys_nodup (sid : String) (ref : SessionRef) :
    ∀ m : List (String × SessionRef), (m.map Prod.fst).Nodup →
      ((register_service sid ref m).map Prod.fst).Nodup := by
  intro m
  induction m with
  | nil => intro _; simp [register_service_nil]
  | cons kv rest ih =>
    obtain ⟨k, v⟩ := kv
    intro hnd
    simp only [List.map_cons, List.nodup_cons] at hnd
    by_cases hk : k = sid
    · subst hk
      rw [register_service_cons_eq]
      simp only [List.map_cons, List.nodup_cons]
      exact hnd
    · rw [register_service_cons_ne sid k ref v rest hk]
      simp only [List.map_cons, List.nodup_cons]
      refine ⟨?_, ih hnd.2⟩
      intro hmem
      rcases mem_keys_register sid ref rest k hmem with h1 | h1
      · exact hk h1
      · exact hnd.1 h1

/-- the read loop never completes once the control stream hits EOF: every
read returns 0 bytes and the loop continues. -/
theorem read_len_eof_none : ∀ (fuel : Nat) (acc : List Nat),
    read_len_loop fuel acc [] = none := by
  intro fuel
  induction fuel with
  | zero => intro acc; rfl
  | succ f ih => intro acc; simpa [read_len_loop] using ih acc

/-- phase 1 of a session sends nothing on any request mailbox. -/
theorem phase1_sends_nothing : ∀ msgs : List ServiceSessionMessage,
    (session_phase1 msgs).2.2 = [] := by
  intro msgs
  induction msgs with
  | nil => rfl
  | cons m rest ih =>
    cases m with
    | recvPrimaryStream s => rfl
    | recvRequest r => simpa [session_phase1] using ih

/-- C6 witness: the round-trip at a concrete request, the one of scenario
S2 of the spec. -/
theorem create_http_roundtrip_witness :
    create_http_text
        ⟨"GET", "/path?q=1", [("x-t", "1"), ("host", "bakadoduri.rachel.test")],
         "hello".data⟩ =
      some (wire_request
        ⟨"GET", "/path?q=1", [("x-t", "1"), ("host", "bakadoduri.rachel.test")],
         "hello".data⟩) ∧
    read_until_nul (wire_request
        ⟨"GET", "/path?q=1", [("x-t", "1"), ("host", "bakadoduri.rachel.test")],
         "hello".data⟩ ++ [nulChar]) =
      wire_request
        ⟨"GET", "/path?q=1", [("x-t", "1"), ("host", "bakadoduri.rachel.test")],
         "hello".data⟩ ∧
    create_request (wire_request
        ⟨"GET", "/path?q=1", [("x-t", "1"), ("host", "bakadoduri.rachel.test")],
         "hello".data⟩) "http://localhost" "8000" =
      some ⟨"GET", "http://localhost" ++ ":" ++ "8000" ++ "/path?q=1",
            [("x-t", "1"), ("host", "bakadoduri.rachel.test")], "hello".data⟩ :=
  create_http_roundtrip
    ⟨"GET", "/path?q=1", [("x-t", "1"), ("host", "bakadoduri.rachel.test")],
     "hello".data⟩
    "http://localhost" "8000" (by decide) (by decide) (by decide) (by decide)
      (by decide)

/-- C6 counterexample: a request with 65 identical headers and an empty
(hence NUL-free) body serializes fine on the server, but the agent's
httparse buffer holds only 64 headers, so create_request panics on
TooManyHeaders and delivers nothing to the origin: the round trip fails
although the body contains no NUL byte. -/
theorem roundtrip_overflow_counterexample :
    create_http_text reqOverflow = some (wire_request reqOverflow) ∧
    nulChar ∉ reqOverflow.body ∧
    create_request (wire_request reqOverflow) "http://localhost" "8000" = none := by
  refine ⟨?_, by decide, ?_⟩
  · have hall : (reqOverflow.headers.all fun kv => allVisibleAscii kv.2) = true := by
      decide
    simp [create_http_text, hall]
  · have hwf : ∀ kv ∈ reqOverflow.headers,
        headerNameOk kv.1 = true ∧ headerValueOk kv.2 = true := by decide
    have hov := parse_headers_overflow reqOverflow.headers maxHeaders
      ((header_block reqOverflow.headers ++ '\r' :: '\n' ::
        reqOverflow.body).length + 1)
      reqOverflow.body
      (by
        have := header_block_length_ge reqOverflow.headers
        simp only [List.length_append, List.length_cons]
        omega)
      (by decide)
      hwf
    rw [wire_request_shape]
    simp only [create_request, parse_http_request,
      takeUntil_token reqOverflow.method (by decide) _,
      takeUntil_token reqOverflow.uri (by decide) _,
      expectChar_self,
      parse_version_roundtrip,
      hov]

/-- C1: as a code bug witness, a request envelope handed to a session
before its stream is bound is consumed by the empty RecvRequest arm of
phase 1 (src/server/src/main.rs:264): the run binds the stream, leaves no
message for phase 2, and sends zero responses on any mailbox, so envelope
7 receives zero responses instead of exactly one. -/
theorem envelope_zero_responses :
    session_phase1 [ServiceSessionMessage.recvRequest 7,
      ServiceSessionMessage.recvPrimaryStream 0] = (some 0, [], []) := rfl

/-- C2: as a code bug witness, phase 1 of a session sends no response at
all on any request mailbox, for every inbox trace; in particular a
ServeRequest arriving before a stream is bound is dropped silently rather
than answered with a synthetic 502 Bad Gateway. -/
theorem prebind_no_502 : ∀ msgs : List ServiceSessionMessage,
    (session_phase1 msgs).2.2 = [] ∧
    ∀ reqId, (session_phase1 (ServiceSessionMessage.recvRequest reqId :: msgs)).2.2
      = [] := by
  intro msgs
  refine ⟨phase1_sends_nothing msgs, fun reqId => ?_⟩
  simpa [session_phase1] using phase1_sends_nothing msgs

/-- C3 counterexample: registering an id that is already present does not
fail and does not leave the map unchanged; services.insert replaces the
stored inbox. -/
theorem register_duplicate_overwrites :
    register_service "abcde" ⟨false⟩ [("abcde", ⟨true⟩)] = [("abcde", ⟨false⟩)] ∧
    ¬register_service "abcde" ⟨false⟩ [("abcde", ⟨true⟩)] = [("abcde", ⟨true⟩)] := by
  decide

/-- C3 amended: Register(service_id, inbox) always succeeds; it replaces
the entry when the id is present and appends it otherwise, other ids are
untouched, and the registry keys stay distinct, so the registry never
holds two entries with the same service_id. -/
theorem register_replaces (sid : String) (ref : SessionRef)
    (m : List (String × SessionRef)) (hnd : (m.map Prod.fst).Nodup) :
    lookupService sid (register_service sid ref m) = some ref ∧
    ((register_service sid ref m).map Prod.fst).Nodup ∧
    ∀ sid2, ¬sid2 = sid →
      lookupService sid2 (register_service sid ref m) = lookupService sid2 m :=
  ⟨register_lookup_self sid ref m, register_keys_nodup sid ref m hnd,
   fun sid2 h => register_lookup_other sid sid2 ref h m⟩

/-- C3 witness: the amended register contract at a concrete map. -/
theorem register_replaces_witness :
    lookupService "newid" (register_service "newid" ⟨true⟩ [("other", ⟨true⟩)]) =
        some ⟨true⟩ ∧
    ((register_service "newid" ⟨true⟩ [("other", ⟨true⟩)]).map Prod.fst).Nodup ∧
    ∀ sid2, ¬sid2 = "newid" →
      lookupService sid2 (register_service "newid" ⟨true⟩ [("other", ⟨true⟩)]) =
        lookupService sid2 [("other", ⟨true⟩)] :=
  register_replaces "newid" ⟨true⟩ [("other", ⟨true⟩)] (by decide)

/-- C4: as a code bug witness, after a session has exited its registry
entry is still present (no UnregisterService is ever sent), so a
ForwardRequest for that id finds the entry, the send to the dead inbox
fails, and the dispatcher receives 502 Bad Gateway instead of the 404 the
claim promises. -/
theorem dead_session_forward_502_not_404 :
    forward_request "rachel.test" [("deadid", ⟨false⟩)]
        (some "deadid.rachel.test".data) = .resp ⟨502, "502 Bad Gateway"⟩ ∧
    ¬forward_request "rachel.test" [("deadid", ⟨false⟩)]
        (some "deadid.rachel.test".data) = .resp ⟨404, "404 Service Not Found"⟩ := by
  decide

/-- C5: the ForwardRequest operation answers 400 when the Host header is
missing or fails to_str, enqueues the envelope when the resolved id has an
entry with a live inbox, answers 502 when the entry's inbox is closed,
and answers 404 when no entry exists. -/
theorem forward_request_cases (domain : String)
    (services : List (String × SessionRef)) :
    forward_request domain services none = .resp ⟨400, "400 Bad Request"⟩ ∧
    (∀ hv, hv.all visibleAsciiByte = false →
      forward_request domain services (some hv) = .resp ⟨400, "400 Bad Request"⟩) ∧
    (∀ hv sref, hv.all visibleAsciiByte = true →
      lookupService (resolve_service_id domain ⟨hv⟩) services = some sref →
      sref.inboxOpen = true →
      forward_request domain services (some hv) =
        .enqueued (resolve_service_id domain ⟨hv⟩)) ∧
    (∀ hv sref, hv.all visibleAsciiByte = true →
      lookupService (resolve_service_id domain ⟨hv⟩) services = some sref →
      sref.inboxOpen = false →
      forward_request domain services (some hv) = .resp ⟨502, "502 Bad Gateway"⟩) ∧
    (∀ hv, hv.all visibleAsciiByte = true →
      lookupService (resolve_service_id domain ⟨hv⟩) services = none →
      forward_request domain services (some hv) =
        .resp ⟨404, "404 Service Not Found"⟩) := by
  refine ⟨rfl, ?_, ?_, ?_, ?_⟩
  · intro hv h
    simp [forward_request, headerValueToStr, h]
  · intro hv sref h hl ho
    simp [forward_request, headerValueToStr, h, hl, ho]
  · intro hv sref h hl ho
    simp [forward_request, headerValueToStr, h, hl, ho]
  · intro hv h hl
    simp [forward_request, headerValueToStr, h, hl]

/-- C7: as a code bug witness, when the control stream reaches EOF while
the session is reading the length prefix of a response frame, the read
loop never terminates for any amount of fuel (a 0-byte read is answered
with continue), so the in-flight request receives no response at all, and
a later request for the same id is still enqueued to the wedged session
rather than answered 404. -/
theorem eof_midframe_no_response :
    (∀ fuel acc, read_len_loop fuel acc [] = none) ∧
    (∀ fuel, read_len_loop fuel [] [49] = none) ∧
    forward_request "rachel.test" [("stuckid", ⟨true⟩)]
        (some "stuckid.rachel.test".data) = .enqueued "stuckid" := by
  refine ⟨read_len_eof_none, ?_, by decide⟩
  intro fuel
  cases fuel with
  | zero => rfl
  | succ f => simp [read_len_loop, read_len_eof_none]

/-- C8 counterexample: with the freshly generated id colliding with an
existing registration, the POST /start handler neither generates the next
id nor returns 500: it answers 200 with the colliding id and silently
replaces the registry entry. -/
theorem start_no_retry_counterexample :
    handle_root_request true "/start" ["oldid", "newid"] [("oldid", ⟨false⟩)] =
      (⟨200, "oldid"⟩, [("oldid", ⟨true⟩)]) ∧
    ¬(handle_root_request true "/start" ["oldid", "newid"]
        [("oldid", ⟨false⟩)]).1.status = 500 := by
  decide

/-- C8 amended: registration cannot fail with a duplicate-id error, so the
POST /start handler makes exactly one generation attempt: it registers the
first fresh id unconditionally (replacing any entry that already holds it)
and always returns 200 with that id; no retry happens and no 500 is ever
returned. -/
theorem start_single_attempt : ∀ (freshIds : List String)
    (services : List (String × SessionRef)),
    handle_root_request true "/start" freshIds services =
      (⟨200, freshIds.headD ""⟩,
       register_service (freshIds.headD "") ⟨true⟩ services) ∧
    ∀ isPost path, ¬(handle_root_request isPost path freshIds services).1.status
      = 500 := by
  intro freshIds services
  constructor
  · simp [handle_root_request]
  · intro isPost path
    unfold handle_root_request
    by_cases h : (isPost && path == "/start") = true
    · simp [h]
    · simp only [Bool.not_eq_true] at h
      simp [h]

/-- a getD within bounds is a member of the list. -/
theorem getD_mem_of_lt (l : List Char) (i : Nat) (d : Char) (h : i < l.length) :
    l.getD i d ∈ l := by
  rw [List.getD_eq_getElem?_getD, List.getElem?_eq_getElem h]
  exact List.getElem_mem h

/-- no vowel is a consonant. -/
theorem vowel_not_consonant : ∀ c ∈ vowels, c ∉ consonants := by decide

/-- no consonant is a vowel. -/
theorem consonant_not_vowel : ∀ c ∈ consonants, c ∉ vowels := by decide

/-- the i-th char the generator emits, written out. -/
theorem phonetic_getD (start : Bool) (pick : Nat → Nat) (i : Nat) (h : i < 10) :
    (phonetic_key_generator start pick).data.getD i ' ' =
      (if i % 2 = (if start then 1 else 0) then
        consonants.getD (pick i % consonants.length) 'b'
      else
        vowels.getD (pick i % vowels.length) 'a') := by
  have hdata : (phonetic_key_generator start pick).data =
      (List.range 10).map fun j =>
        if j % 2 = (if start then 1 else 0) then
          consonants.getD (pick j % consonants.length) 'b'
        else
          vowels.getD (pick j % vowels.length) 'a' := rfl
  rw [hdata, List.getD_eq_getElem?_getD, List.getElem?_map, List.getElem?_range h]
  rfl

/-- C9: every string the service-id generator returns has exactly 10
characters, each drawn from the vowel or consonant alphabet, with vowels
and consonants strictly alternating; the class of the first character is
decided by the random start bit, so either class can lead. -/
theorem phonetic_key_ok : ∀ (start : Bool) (pick : Nat → Nat),
    (phonetic_key_generator start pick).data.length = 10 ∧
    (∀ i, i < 10 → ((phonetic_key_generator start pick).data.getD i ' ' ∈ vowels ∨
        (phonetic_key_generator start pick).data.getD i ' ' ∈ consonants)) ∧
    (∀ i, i + 1 < 10 →
        ((phonetic_key_generator start pick).data.getD i ' ' ∈ vowels ↔
         (phonetic_key_generator start pick).data.getD (i + 1) ' ' ∈ consonants)) := by
  intro start pick
  have hcons : ∀ i, i < 10 → i % 2 = (if start then 1 else 0) →
      (phonetic_key_generator start pick).data.getD i ' ' ∈ consonants := by
    intro i hi hpar
    rw [phonetic_getD start pick i hi, if_pos hpar]
    exact getD_mem_of_lt _ _ _ (Nat.mod_lt _ (by decide))
  have hvow : ∀ i, i < 10 → ¬i % 2 = (if start then 1 else 0) →
      (phonetic_key_generator start pick).data.getD i ' ' ∈ vowels := by
    intro i hi hpar
    rw [phonetic_getD start pick i hi, if_neg hpar]
    exact getD_mem_of_lt _ _ _ (Nat.mod_lt _ (by decide))
  have hb : (if start then 1 else 0) = 0 ∨ (if start then 1 else 0) = 1 := by
    cases start <;> simp
  refine ⟨rfl, ?_, ?_⟩
  · intro i hi
    by_cases hpar : i % 2 = (if start then 1 else 0)
    · exact Or.inr (hcons i hi hpar)
    · exact Or.inl (hvow i hi hpar)
  · intro i hi
    by_cases hpar : i % 2 = (if start then 1 else 0)
    · have hpar2 : ¬(i + 1) % 2 = (if start then 1 else 0) := by omega
      constructor
      · intro hv
        exact absurd hv (consonant_not_vowel _ (hcons i (by omega) hpar))
      · intro hc
        exact absurd hc (vowel_not_consonant _ (hvow (i + 1) hi hpar2))
    · have hpar2 : (i + 1) % 2 = (if start then 1 else 0) := by omega
      exact iff_of_true (hvow i (by omega) hpar) (hcons (i + 1) hi hpar2)

/-- C10: when a tenant request handed to a bound session carries a header
value that is not visible-ASCII text, the serializer panics at
HeaderValue::to_str().unwrap() (src/server/src/main.rs:354): no frame is
produced, nothing is ever sent on the request's response mailbox, and the
dispatcher's recv().unwrap() on the empty mailbox panics in turn. -/
theorem bad_header_value_panics (r : HttpRequest) (kv : String × String)
    (hmem : kv ∈ r.headers) (hbad : allVisibleAscii kv.2 = false) :
    create_http_text r = none ∧ serve_write_frame r = none ∧
    recv_unwrap [] = none := by
  have hall : (r.headers.all fun kv2 => allVisibleAscii kv2.2) = false := by
    cases hres : r.headers.all fun kv2 => allVisibleAscii kv2.2 with
    | false => rfl
    | true =>
      have h1 := List.all_eq_true.mp hres kv hmem
      rw [hbad] at h1
      exact absurd h1 Bool.false_ne_true
  refine ⟨?_, ?_, rfl⟩
  · simp [create_http_text, hall]
  · simp [serve_write_frame, create_http_text, hall]

/-- C10 witness: a request with a single header whose value is the byte
0xC8, which HeaderValue accepts but to_str rejects. -/
theorem bad_header_value_panics_witness :
    create_http_text ⟨"GET", "/", [("x-bin", ⟨[Char.ofNat 200]⟩)], []⟩ = none ∧
    serve_write_frame ⟨"GET", "/", [("x-bin", ⟨[Char.ofNat 200]⟩)], []⟩ = none ∧
    recv_unwrap [] = none :=
  bad_header_value_panics ⟨"GET", "/", [("x-bin", ⟨[Char.ofNat 200]⟩)], []⟩
    ("x-bin", ⟨[Char.ofNat 200]⟩) (by decide) (by decide)

end Tunnelly
